import Mathlib

/-!
Verification of the cross-chain NFT bridge relayer core: a shallow embedding
of the request state machine, the durable store, the pending-request index,
the event listeners, the transaction workers and the recovery pass, together
with theorems settling the specified properties.

Chain RPC results (token owner queries, metadata reads, transaction
submission results) are external inputs of the embedded functions; the
embedded code is the relayer logic that consumes them.  Rust panics
(unwrap, out-of-bounds indexing) are modelled by an Option result where
none stands for a panic.
-/

namespace Bridge

/-! ### Keccak-256 (the hash used by generate_id, Ethereum variant)

Standard Keccak-256 with rate 1088 and the original 0x01 domain padding,
as computed by the keccak256 primitive of the alloy dependency.  Lanes are
64-bit words represented as Nat reduced mod 2 ^ 64. -/

def rotl64 (x n : Nat) : Nat :=
  ((x <<< n) ||| (x >>> (64 - n))) % 18446744073709551616

def rhoOffsets : List Nat :=
  [0, 1, 62, 28, 27] ++
  [36, 44, 6, 55, 20] ++
  [3, 10, 43, 25, 39] ++
  [41, 45, 15, 21, 8] ++
  [18, 2, 61, 56, 14]

def roundConstants : List Nat :=
  [1, 32898, 9223372036854808714, 9223372039002292224] ++
  [32907, 2147483649, 9223372039002292353, 9223372036854808585] ++
  [138, 136, 2147516425, 2147483658] ++
  [2147516555, 9223372036854775947, 9223372036854808713, 9223372036854808579] ++
  [9223372036854808578, 9223372036854775936, 32778, 9223372039002259466] ++
  [9223372039002292353, 9223372036854808704, 2147483649, 9223372039002292232]

def keccakRound (A : List Nat) (rc : Nat) : List Nat :=
  let C := (List.range 5).map (fun x =>
    (((A.getD x 0 ^^^ A.getD (x + 5) 0) ^^^ A.getD (x + 10) 0) ^^^ A.getD (x + 15) 0)
      ^^^ A.getD (x + 20) 0)
  let D := (List.range 5).map (fun x =>
    C.getD ((x + 4) % 5) 0 ^^^ rotl64 (C.getD ((x + 1) % 5) 0) 1)
  let A1 := (List.range 25).map (fun i => A.getD i 0 ^^^ D.getD (i % 5) 0)
  let B := (List.range 25).map (fun i =>
    let x := i % 5
    let y := i / 5
    let src := (x + 3 * y) % 5 + 5 * x
    rotl64 (A1.getD src 0) (rhoOffsets.getD src 0))
  let A2 := (List.range 25).map (fun i =>
    let x := i % 5
    let y := i / 5
    B.getD i 0 ^^^
      ((B.getD ((x + 1) % 5 + 5 * y) 0 ^^^ 18446744073709551615) &&&
        B.getD ((x + 2) % 5 + 5 * y) 0))
  A2.set 0 (A2.getD 0 0 ^^^ rc)

def keccakF (st : List Nat) : List Nat :=
  roundConstants.foldl keccakRound st

/-- Little-endian load of up to 8 bytes into one 64-bit lane. -/
def loadLane (bs : List Nat) : Nat :=
  bs.foldr (fun b acc => b + 256 * acc) 0

def keccakPad (msg : List Nat) : List Nat :=
  let padLen := 136 - msg.length % 136
  if padLen = 1 then msg ++ [0x81]
  else msg ++ [0x01] ++ List.replicate (padLen - 2) 0 ++ [0x80]

def chunksAux : Nat → List Nat → List (List Nat)
  | 0, _ => []
  | _, [] => []
  | fuel + 1, b :: rest => (b :: rest).take 136 :: chunksAux fuel ((b :: rest).drop 136)

def chunks136 (l : List Nat) : List (List Nat) :=
  chunksAux l.length l

def absorbBlock (st : List Nat) (block : List Nat) : List Nat :=
  let st1 := (List.range 25).map (fun i =>
    if i < 17 then st.getD i 0 ^^^ loadLane ((block.drop (8 * i)).take 8) else st.getD i 0)
  keccakF st1

/-- Keccak-256 of a byte list, producing the 32 digest bytes. -/
def keccak256 (msg : List Nat) : List Nat :=
  let st := (chunks136 (keccakPad msg)).foldl absorbBlock (List.replicate 25 0)
  (List.range 32).map (fun i => (st.getD (i / 8) 0 >>> (8 * (i % 8))) % 256)

/-- UTF-8 encoding of one character as byte values, as produced by the Rust
String::as_bytes view consumed by generate_id. -/
def utf8EncodeCharNat (c : Char) : List Nat :=
  let n := c.toNat
  if n < 0x80 then [n]
  else if n < 0x800 then
    [0xC0 ||| (n >>> 6), 0x80 ||| (n &&& 0x3F)]
  else if n < 0x10000 then
    [0xE0 ||| (n >>> 12), 0x80 ||| ((n >>> 6) &&& 0x3F), 0x80 ||| (n &&& 0x3F)]
  else
    [0xF0 ||| (n >>> 18), 0x80 ||| ((n >>> 12) &&& 0x3F),
     0x80 ||| ((n >>> 6) &&& 0x3F), 0x80 ||| (n &&& 0x3F)]

def strBytes (s : String) : List Nat :=
  s.data.foldr (fun c acc => utf8EncodeCharNat c ++ acc) []

def hexDigit (n : Nat) : Char :=
  if n < 10 then Char.ofNat (48 + n) else Char.ofNat (87 + n)

/-- Lowercase hex rendering of a byte list, as in the Display instance of
the 32-byte digest type. -/
def bytesToHex (bs : List Nat) : String :=
  bs.foldl (fun acc b => (acc.push (hexDigit (b / 16))).push (hexDigit (b % 16))) ""

/-! ### Data model (crates/types/src/types.rs) -/

inductive Status
  | RequestReceived
  | TokenReceived
  | TokenMinted
  | Completed
  | Canceled
deriving DecidableEq, Repr

inductive Chains
  | EVM
  | SOLANA
deriving DecidableEq, Repr

structure InputRequest where
  contract_or_mint : String
  token_id : String
  token_owner : String
  origin_network : Chains
  destination_account : String
deriving DecidableEq, Repr

structure OutputResult where
  detination_token_id_or_account : String
  detination_contract_id_or_mint : String
deriving DecidableEq, Repr

/-- Rust Default for OutputResult: both fields empty. -/
def OutputResult.defaultValue : OutputResult := ⟨"", ""⟩

structure BRequest where
  id : String
  status : Status
  input : InputRequest
  tx_hashes : List String
  output : OutputResult
  last_update : Nat
deriving DecidableEq, Repr

inductive Function
  | Mint
  | NewRequest
deriving DecidableEq, Repr

structure MessageMint where
  request_id : String
  token_metadata : String
deriving DecidableEq, Repr

structure MessageNewRequest where
  token_contract : String
  token_owner : String
  token_id : String
  request_id : String
deriving DecidableEq, Repr

structure TxMessage where
  accion : Function
  mint_data : Option MessageMint
  request_data : Option MessageNewRequest
deriving DecidableEq, Repr

/-! ### Keyed map primitives

The store maps string keys to values (RocksDB via serde).  Maps are
association lists; hmInsert replaces the value of an existing key, hmErase
removes a key, hmSetIfMem mirrors a get_mut update that only touches an
existing key. -/

def hmLookup {β : Type} (k : String) : List (String × β) → Option β
  | [] => none
  | p :: rest => if p.1 = k then some p.2 else hmLookup k rest

def hmInsert {β : Type} (k : String) (v : β) : List (String × β) → List (String × β)
  | [] => [(k, v)]
  | p :: rest => if p.1 = k then (k, v) :: rest else p :: hmInsert k v rest

def hmErase {β : Type} (k : String) : List (String × β) → List (String × β)
  | [] => []
  | p :: rest => if p.1 = k then rest else p :: hmErase k rest

def hmSetIfMem {β : Type} (k : String) (v : β) : List (String × β) → List (String × β)
  | [] => []
  | p :: rest => if p.1 = k then (k, v) :: rest else p :: hmSetIfMem k v rest

/-- The durable store: request records under their id keys, plus the three
well-known keys pending_requests, pending_requests_index and
completed_requests (absent key = none). -/
structure Store where
  requests : List (String × BRequest)
  pending_requests : Option (List String)
  pending_requests_index : Option (List (String × Int))
  completed_requests : Option (List String)
deriving DecidableEq, Repr

/-- db.write_value under the request id key (whole-record snapshot). -/
def Store.put_request (s : Store) (r : BRequest) : Store :=
  { s with requests := hmInsert r.id r s.requests }

/-! ### Registry reads and the completed list (crates/types/src/functions.rs) -/

def request_data (request_id : String) (s : Store) : Option BRequest :=
  hmLookup request_id s.requests

def add_completed_request (request_id : String) (s : Store) : Store :=
  match s.completed_requests with
  | some completed => { s with completed_requests := some (completed ++ [request_id]) }
  | none => { s with completed_requests := some [request_id] }

/-! ### State machine (impl BRequest, crates/types/src/types.rs) -/

/-- The match of update_state on the current status. -/
def statusStep : Status → Status
  | .RequestReceived => .TokenReceived
  | .TokenReceived => .TokenMinted
  | .TokenMinted => .Completed
  | .Completed => .Completed
  | .Canceled => .Canceled

/-- update_state: advance the status per the match arms, stamp last_update
with the current time (passed explicitly as now), persist the record. -/
def BRequest.update_state (r : BRequest) (now : Nat) (s : Store) : BRequest × Store :=
  let r2 := { r with status := statusStep r.status, last_update := now }
  (r2, s.put_request r2)

/-- cancel: set status to Canceled and persist.  The source does not stamp
last_update here and does not touch the pending collections. -/
def BRequest.cancel (r : BRequest) (s : Store) : BRequest × Store :=
  let r2 := { r with status := Status.Canceled }
  (r2, s.put_request r2)

/-- finalize: write both output fields, stamp last_update, persist, append
the id to the completed list.  The source never writes the status field
here. -/
def BRequest.finalize (r : BRequest) (now : Nat) (token_contract token_id : String)
    (s : Store) : BRequest × Store :=
  let r2 := { r with
    output := { detination_contract_id_or_mint := token_contract,
                detination_token_id_or_account := token_id },
    last_update := now }
  (r2, add_completed_request r2.id (s.put_request r2))

/-- add_tx: append one hash to tx_hashes and persist. -/
def BRequest.add_tx (r : BRequest) (tx : String) (s : Store) : BRequest × Store :=
  let r2 := { r with tx_hashes := r.tx_hashes ++ [tx] }
  (r2, s.put_request r2)

/-- generate_id: keccak-256 over the raw concatenation of the three fields
(as UTF-8 bytes, no separator), rendered as a 0x-prefixed hex string. -/
def BRequest.generate_id (contract token_id token_owner : String) : String :=
  "0x" ++ bytesToHex (keccak256 (strBytes contract ++ strBytes token_id ++ strBytes token_owner))

/-- BRequest::new: fresh record in RequestReceived with empty history and
default output; now is the creation timestamp. -/
def BRequest.new (input : InputRequest) (now : Nat) : BRequest :=
  { id := BRequest.generate_id input.contract_or_mint input.token_id input.token_owner,
    status := Status.RequestReceived,
    input := input,
    tx_hashes := [],
    output := OutputResult.defaultValue,
    last_update := now }

/-! ### Pending collections (crates/requests/src/pending.rs)

The two writers swallow storage failures: a failed put is mapped into a
RequestError that is immediately discarded and the function returns Ok
unconditionally.  The okV and okH flags say whether the underlying KV put
actually lands; the returned store is unchanged when it fails, and no error
is ever surfaced. -/

def update_pending_vector (okV : Bool) (s : Store) (requests : List String) : Store :=
  if okV then { s with pending_requests := some requests } else s

def update_pending_hashmap (okH : Bool) (s : Store) (indexes : List (String × Int)) : Store :=
  if okH then { s with pending_requests_index := some indexes } else s

/-- add_pending_request: append the id to the pending list and insert
id to former-length into the index; if the list key is absent, initialize
both.  Returns none for the unwrap panic when the list exists but the
index key is absent. -/
def add_pending_request (okV okH : Bool) (request_id : String) (s : Store) : Option Store :=
  match s.pending_requests, s.pending_requests_index with
  | some pending, idxOpt =>
    let s1 := update_pending_vector okV s (pending ++ [request_id])
    match idxOpt with
    | none => none
    | some indexes =>
      some (update_pending_hashmap okH s1 (hmInsert request_id (pending.length : Int) indexes))
  | none, _ =>
    let s1 := update_pending_vector okV s [request_id]
    some (update_pending_hashmap okH s1 (hmInsert request_id 0 []))

/-- Vec::swap_remove at index i: the removed slot takes the last element,
then the last slot is dropped (callers guard 0 < length and i < length). -/
def swapRemove (l : List String) (i : Nat) : List String :=
  (l.set i (l.getD (l.length - 1) "")).dropLast

/-- remove_pending_request: swap-remove by the slot recorded in the index.
Panics, modelled as none: when the index key is absent while the list key
exists; when the id has no index entry (indexes.remove(id).unwrap()); when
the list is empty (pending[len - 1] underflow); when the recorded slot is
out of bounds for swap_remove (an i128-to-usize cast of a negative or
oversized slot lands out of range).  When the list key is absent the
function is a no-op returning Ok. -/
def remove_pending_request (okV okH : Bool) (request_id : String) (s : Store) : Option Store :=
  match s.pending_requests with
  | none => some s
  | some pending =>
    match s.pending_requests_index with
    | none => none
    | some indexes =>
      match hmLookup request_id indexes with
      | none => none
      | some request_index =>
        let indexes1 := hmErase request_id indexes
        if pending.length = 0 then none
        else
          let last_id := pending.getD (pending.length - 1) ""
          if 0 ≤ request_index ∧ request_index.toNat < pending.length then
            let s1 := update_pending_vector okV s (swapRemove pending request_index.toNat)
            some (update_pending_hashmap okH s1 (hmSetIfMem last_id request_index indexes1))
          else none

/-! ### Intake (crates/requests/src/endpoints.rs) -/

inductive RequestError
  | CreationError (msg : String)
  | EVMTxError
  | SolanaTxError
  | AlreadyExistingRequest (id : String)
  | NoExistingRequest (id : String)
  | InvalidDestinationAccount
deriving DecidableEq, Repr

/-- already_existing_request: true iff the id is stored with a status that
is neither Canceled nor Completed. -/
def already_existing_request (request_id : String) (s : Store) : Bool :=
  match request_data request_id s with
  | some request => request.status != Status.Canceled && request.status != Status.Completed
  | none => false

/-- new_request intake.  External inputs: destValid is whether the
destination account parses for the destination chain; txResult is the
origin-chain lock submission outcome (none = chain error); addTxOk is
whether persisting the record succeeds; okV, okH gate the two pending-key
puts, whose outcome is discarded by the source (the underscore-discarded
add_pending_request call).  none models a panic inside
add_pending_request. -/
def new_request (destValid : Bool) (txResult : Option String) (addTxOk okV okH : Bool)
    (input : InputRequest) (now : Nat) (s : Store) :
    Option (Except RequestError (BRequest × Store)) :=
  let request := BRequest.new input now
  if already_existing_request request.id s then
    some (Except.error (RequestError.AlreadyExistingRequest request.id))
  else if destValid = false then
    some (Except.error RequestError.InvalidDestinationAccount)
  else
    match txResult with
    | none =>
      some (Except.error (match input.origin_network with
        | Chains.EVM => RequestError.EVMTxError
        | Chains.SOLANA => RequestError.SolanaTxError))
    | some tx =>
      if addTxOk = false then some (Except.error (RequestError.CreationError ""))
      else
        let rs := request.add_tx tx s
        match add_pending_request okV okH rs.1.id rs.2 with
        | none => none
        | some s2 => some (Except.ok (rs.1, s2))

/-! ### Event listeners (crates/evm/src/calls.rs, crates/evm/src/evm_events.rs,
crates/solana/src/read_account.rs)

chainOwner is the on-chain ownerOf answer, metadata the tokenURI or
Metaplex uri read (none = read failed).  Messages returned are the
TxMessage sends into the opposite-chain channel. -/

/-- EVM check_token_owner: on a stored request, cancel when the bridge is
not the owner, then unconditionally update_state and enqueue a Mint
message (the source has no ownership guard on those two steps).  none is
the metadata unwrap panic. -/
def evm_check_token_owner (bridge_contract : String) (chainOwner : String)
    (metadata : Option String) (request_id : String) (now : Nat) (s : Store) :
    Option (Store × List TxMessage) :=
  match request_data request_id s with
  | none => some (s, [])
  | some request =>
    let rs1 := if chainOwner ≠ bridge_contract then request.cancel s else (request, s)
    let rs2 := rs1.1.update_state now rs1.2
    match metadata with
    | none => none
    | some md =>
      some (rs2.2, [{ accion := Function.Mint,
                      mint_data := some { request_id := request_id, token_metadata := md },
                      request_data := none }])

/-- Solana check_token_owner: only acts on a stored request still in
RequestReceived; getAccountOk is the account-data fetch, unpackOk the SPL
account unpack; on owner = bridge and amount = 1 it advances the state and
enqueues a Mint message, otherwise it does nothing (in particular it never
cancels).  none is the get_account_data or get_metadata unwrap panic. -/
def solana_check_token_owner (bridge_account : String) (getAccountOk : Bool)
    (unpackOk : Bool) (tokenOwner : String) (tokenAmount : Nat)
    (metadata : Option String) (request_id : String) (now : Nat) (s : Store) :
    Option (Store × List TxMessage) :=
  match request_data request_id s with
  | none => some (s, [])
  | some request =>
    if request.status = Status.RequestReceived then
      if getAccountOk = false then none
      else if unpackOk then
        if tokenOwner = bridge_account ∧ tokenAmount = 1 then
          let rs := request.update_state now s
          match metadata with
          | none => none
          | some md =>
            some (rs.2, [{ accion := Function.Mint,
                           mint_data := some { request_id := request_id, token_metadata := md },
                           request_data := none }])
        else some (s, [])
      else some (s, [])
    else some (s, [])

/-- TokenMinted arm of the EVM catch_event loop: advance to Completed only
when the stored status is TokenMinted and both event fields match the
stored output; the pending collections are never touched here. -/
def catch_event_token_minted (requestId tokenContract toAccount tokenId : String)
    (now : Nat) (s : Store) : Store :=
  match request_data requestId s with
  | some request =>
    if request.status = Status.TokenMinted then
      if request.output.detination_contract_id_or_mint = tokenContract ∧
          request.output.detination_token_id_or_account = tokenId then
        (request.update_state now s).2
      else s
    else s
  | none => s

/-! ### Tx workers (crates/solana/src/sol_txs.rs, crates/evm/src/evm_txs.rs)

sig and txHash are the chain submission results (the success path of
send_and_confirm); mint_pk and user_ata are the derived destination mint
PDA and associated token account, deterministic in the request input;
destination_contract and token_id_evm are the bridge tokenAddress view and
the base58-decoded token id on the EVM side. -/

/-- Solana mint_new_token store effects: on a stored request, append the tx
signature, advance the state only from TokenReceived, then finalize with
the derived mint and token account.  Unknown id is a silent no-op. -/
def solana_mint_new_token (sig mint_pk user_ata : String) (request_id : String)
    (token_metadata : String) (now : Nat) (s : Store) : Store :=
  match request_data request_id s with
  | none => s
  | some request =>
    let rs1 := request.add_tx sig s
    let rs2 := if rs1.1.status = Status.TokenReceived then rs1.1.update_state now rs1.2 else rs1
    (rs2.1.finalize now mint_pk user_ata rs2.2).2

/-- EVM mint_new_token store effects, same shape as the Solana side. -/
def evm_mint_new_token (txHash destination_contract token_id_evm : String)
    (request_id : String) (token_metadata : String) (now : Nat) (s : Store) : Store :=
  match request_data request_id s with
  | none => s
  | some request =>
    let rs1 := request.add_tx txHash s
    let rs2 := if rs1.1.status = Status.TokenReceived then rs1.1.update_state now rs1.2 else rs1
    (rs2.1.finalize now destination_contract token_id_evm rs2.2).2

/-! ### Recovery (crates/requests/src/pending.rs, process functions) -/

/-- External chain answers consumed by one recovery step. -/
structure RecoveryOracle where
  chainOwner : String
  evm_metadata : Option String
  sol_sig : String
  mint_pk : String
  user_ata : String
  sol_tx_found : Bool
  sol_metadata : Option String
  evm_tx_hash : String
  destination_contract : String
  token_id_evm : String
deriving Repr

/-- continue_from_metadata: read origin metadata and re-run the destination
mint; a failed metadata read skips the mint and returns Ok. -/
def continue_from_metadata (o : RecoveryOracle) (request : BRequest) (now : Nat)
    (s : Store) : Store :=
  match request.input.origin_network with
  | Chains.EVM =>
    match o.evm_metadata with
    | some md => solana_mint_new_token o.sol_sig o.mint_pk o.user_ata request.id md now s
    | none => s
  | Chains.SOLANA =>
    match o.sol_metadata with
    | some md =>
      evm_mint_new_token o.evm_tx_hash o.destination_contract o.token_id_evm request.id md now s
    | none => s

/-- process_evm_pending_request: one recovery step for an EVM-origin pending
id, dispatching on the stored status; Completed and Canceled remove the id
from the pending collections.  none models a panic (empty tx_hashes
indexing, or a panic inside a callee). -/
def process_evm_pending_request (bridge_contract : String) (o : RecoveryOracle)
    (request : BRequest) (now : Nat) (s : Store) : Option (Store × List TxMessage) :=
  match request.status with
  | Status.RequestReceived =>
    evm_check_token_owner bridge_contract o.chainOwner o.evm_metadata request.id now s
  | Status.TokenReceived => some (continue_from_metadata o request now s, [])
  | Status.TokenMinted =>
    match request.tx_hashes.getLast? with
    | none => none
    | some _ =>
      if o.sol_tx_found = false then some (continue_from_metadata o request now s, [])
      else
        match o.sol_metadata with
        | some _ => some ((request.update_state now s).2, [])
        | none => some (continue_from_metadata o request now s, [])
  | Status.Completed => (remove_pending_request true true request.id s).map (fun s2 => (s2, []))
  | Status.Canceled => (remove_pending_request true true request.id s).map (fun s2 => (s2, []))

/-! ### The swap-remove-set invariant (section 3 of the design) -/

/-- The swap-remove-set invariant on a materialized list and index: the list
holds each id once, the index keys are unique, every listed id has an index
entry, and every index entry points at the slot of its own id. -/
def swapRemoveInvSome (l : List String) (m : List (String × Int)) : Prop :=
  l.Nodup ∧ (m.map Prod.fst).Nodup ∧
  (∀ x ∈ l, x ∈ m.map Prod.fst) ∧
  (∀ p ∈ m, 0 ≤ p.2 ∧ p.2.toNat < l.length ∧ l[p.2.toNat]? = some p.1)

instance (l : List String) (m : List (String × Int)) : Decidable (swapRemoveInvSome l m) := by
  unfold swapRemoveInvSome
  exact inferInstance

/-- Store-level invariant: both pending keys absent (fresh store), or both
present and forming a swap-remove set. -/
def swapRemoveInv : Store → Prop
  | ⟨_, some l, some m, _⟩ => swapRemoveInvSome l m
  | ⟨_, none, none, _⟩ => True
  | ⟨_, none, some _, _⟩ => False
  | ⟨_, some _, none, _⟩ => False

instance : (s : Store) → Decidable (swapRemoveInv s)
  | ⟨_, some l, some m, _⟩ => inferInstanceAs (Decidable (swapRemoveInvSome l m))
  | ⟨_, none, none, _⟩ => inferInstanceAs (Decidable True)
  | ⟨_, none, some _, _⟩ => inferInstanceAs (Decidable False)
  | ⟨_, some _, none, _⟩ => inferInstanceAs (Decidable False)

/-! ### Map lemmas -/

theorem hmLookup_hmInsert_self {β : Type} (k : String) (v : β) (m : List (String × β)) :
    hmLookup k (hmInsert k v m) = some v := by
  induction m with
  | nil => simp [hmInsert, hmLookup]
  | cons p rest ih =>
    by_cases h : p.1 = k
    · simp [hmInsert, hmLookup, h]
    · simp [hmInsert, hmLookup, h, ih]

theorem hmLookup_hmInsert_ne {β : Type} {k q : String} (h : q ≠ k) (v : β)
    (m : List (String × β)) : hmLookup q (hmInsert k v m) = hmLookup q m := by
  have hk : k ≠ q := Ne.symm h
  induction m with
  | nil => simp [hmInsert, hmLookup, hk]
  | cons p rest ih =>
    by_cases hp : p.1 = k
    · simp [hmInsert, hmLookup, hp, hk]
    · simp [hmInsert, hmLookup, hp, ih]

theorem add_completed_request_requests (j : String) (s : Store) :
    (add_completed_request j s).requests = s.requests := by
  unfold add_completed_request
  cases s.completed_requests <;> rfl

theorem request_data_add_completed (q j : String) (s : Store) :
    request_data q (add_completed_request j s) = request_data q s := by
  unfold request_data
  rw [add_completed_request_requests]

theorem add_completed_request_completed (j : String) (s : Store) :
    (add_completed_request j s).completed_requests =
      some ((s.completed_requests.getD []) ++ [j]) := by
  unfold add_completed_request
  cases s.completed_requests <;> rfl

theorem hmLookup_isSome_iff {β : Type} (q : String) (m : List (String × β)) :
    (hmLookup q m).isSome = true ↔ q ∈ m.map Prod.fst := by
  induction m with
  | nil => simp [hmLookup]
  | cons p rest ih =>
    by_cases h : p.1 = q
    · simp [hmLookup, h]
    · simp [hmLookup, h, ih, show ¬ q = p.1 from fun hh => h hh.symm]

theorem hmLookup_eq_none_of_not_mem_keys {β : Type} {q : String} {m : List (String × β)}
    (h : q ∉ m.map Prod.fst) : hmLookup q m = none := by
  cases hl : hmLookup q m with
  | none => rfl
  | some v => exact absurd ((hmLookup_isSome_iff q m).mp (by simp [hl])) h

theorem mem_of_hmLookup_eq_some {β : Type} {q : String} {v : β} {m : List (String × β)}
    (h : hmLookup q m = some v) : (q, v) ∈ m := by
  induction m with
  | nil => simp [hmLookup] at h
  | cons p rest ih =>
    obtain ⟨a, b⟩ := p
    by_cases ha : a = q
    · subst ha
      simp [hmLookup] at h
      subst h
      exact List.mem_cons_self _ _
    · simp [hmLookup, ha] at h
      exact List.mem_cons_of_mem _ (ih h)

theorem hmLookup_of_mem {β : Type} {q : String} {v : β} {m : List (String × β)}
    (hnd : (m.map Prod.fst).Nodup) (hm : (q, v) ∈ m) : hmLookup q m = some v := by
  induction m with
  | nil => simp at hm
  | cons p rest ih =>
    obtain ⟨a, b⟩ := p
    simp only [List.map_cons, List.nodup_cons] at hnd
    rcases List.mem_cons.mp hm with h | h
    · injection h with h1 h2
      subst h1
      subst h2
      simp [hmLookup]
    · have hq : ¬ a = q := by
        intro hh
        subst hh
        exact hnd.1 (List.mem_map_of_mem Prod.fst h)
      simp [hmLookup, hq, ih hnd.2 h]

theorem hmErase_sublist {β : Type} (k : String) (m : List (String × β)) :
    (hmErase k m).Sublist m := by
  induction m with
  | nil => simp [hmErase]
  | cons p rest ih =>
    by_cases h : p.1 = k
    · simpa [hmErase, h] using List.sublist_cons_self p rest
    · simpa [hmErase, h] using ih.cons₂ p

theorem hmLookup_hmErase_ne {β : Type} {k q : String} (h : q ≠ k) (m : List (String × β)) :
    hmLookup q (hmErase k m) = hmLookup q m := by
  induction m with
  | nil => rfl
  | cons p rest ih =>
    by_cases hp : p.1 = k
    · have hpq : ¬ p.1 = q := by
        rw [hp]
        exact fun hh => h hh.symm
      simp [hmErase, hp, hmLookup, hpq, show ¬ k = q from fun hh => h hh.symm]
    · simp [hmErase, hp, hmLookup, ih]

theorem hmLookup_hmErase_self {β : Type} {k : String} {m : List (String × β)}
    (hnd : (m.map Prod.fst).Nodup) : hmLookup k (hmErase k m) = none := by
  induction m with
  | nil => rfl
  | cons p rest ih =>
    simp only [List.map_cons, List.nodup_cons] at hnd
    by_cases hp : p.1 = k
    · have : k ∉ rest.map Prod.fst := hp ▸ hnd.1
      simp [hmErase, hp, hmLookup_eq_none_of_not_mem_keys this]
    · simp [hmErase, hp, hmLookup, ih hnd.2]

theorem hmSetIfMem_keys {β : Type} (k : String) (v : β) (m : List (String × β)) :
    (hmSetIfMem k v m).map Prod.fst = m.map Prod.fst := by
  induction m with
  | nil => rfl
  | cons p rest ih =>
    by_cases hp : p.1 = k
    · simp [hmSetIfMem, hp]
    · simp [hmSetIfMem, hp, ih]

theorem hmLookup_hmSetIfMem_self {β : Type} (k : String) (v : β) (m : List (String × β)) :
    hmLookup k (hmSetIfMem k v m) = (hmLookup k m).map (fun _ => v) := by
  induction m with
  | nil => rfl
  | cons p rest ih =>
    by_cases hp : p.1 = k
    · simp [hmSetIfMem, hp, hmLookup]
    · simp [hmSetIfMem, hp, hmLookup, ih]

theorem hmLookup_hmSetIfMem_ne {β : Type} {k q : String} (h : q ≠ k) (v : β)
    (m : List (String × β)) : hmLookup q (hmSetIfMem k v m) = hmLookup q m := by
  have hk : ¬ k = q := fun hh => h hh.symm
  induction m with
  | nil => rfl
  | cons p rest ih =>
    by_cases hp : p.1 = k
    · have hpq : ¬ p.1 = q := by
        rw [hp]
        exact hk
      simp [hmSetIfMem, hp, hmLookup, hk, hpq]
    · simp [hmSetIfMem, hp, hmLookup, ih]

theorem hmInsert_of_not_mem_keys {β : Type} {k : String} {m : List (String × β)}
    (h : k ∉ m.map Prod.fst) (v : β) : hmInsert k v m = m ++ [(k, v)] := by
  induction m with
  | nil => rfl
  | cons p rest ih =>
    simp only [List.map_cons, List.mem_cons, not_or] at h
    simp [hmInsert, show ¬ p.1 = k from fun hh => h.1 hh.symm, ih h.2]

theorem swapRemove_length (l : List String) (i : Nat) :
    (swapRemove l i).length = l.length - 1 := by
  simp [swapRemove]

theorem swapRemove_getElem? (l : List String) (i j : Nat) (hi : i < l.length)
    (hj : j < l.length - 1) :
    (swapRemove l i)[j]? = if j = i then l[l.length - 1]? else l[j]? := by
  unfold swapRemove
  rw [List.dropLast_eq_take, List.length_set, List.getElem?_take_of_lt hj]
  by_cases h : j = i
  · subst h
    rw [if_pos rfl, List.getElem?_set_self (by omega), List.getD_eq_getElem?_getD]
    cases hl : l[l.length - 1]? with
    | none =>
      rw [List.getElem?_eq_none_iff] at hl
      omega
    | some a => simp
  · rw [if_neg h, List.getElem?_set_ne (Ne.symm h)]

theorem swapRemove_nodup {l : List String} {i : Nat} (hnd : l.Nodup) (hi : i < l.length) :
    (swapRemove l i).Nodup := by
  have hlen : (swapRemove l i).length = l.length - 1 := swapRemove_length l i
  have key : ∀ j1 j2, j1 < (swapRemove l i).length → j2 < (swapRemove l i).length →
      (swapRemove l i)[j1]? = (swapRemove l i)[j2]? → j1 = j2 := by
    intro j1 j2 h1 h2 heq
    rw [hlen] at h1 h2
    rw [swapRemove_getElem? l i j1 hi h1, swapRemove_getElem? l i j2 hi h2] at heq
    by_cases e1 : j1 = i <;> by_cases e2 : j2 = i
    · omega
    · rw [if_pos e1, if_neg e2] at heq
      have := List.getElem?_inj (by omega) hnd heq
      omega
    · rw [if_neg e1, if_pos e2] at heq
      have := List.getElem?_inj (by omega) hnd heq
      omega
    · rw [if_neg e1, if_neg e2] at heq
      have := List.getElem?_inj (by omega) hnd heq
      omega
  rw [List.nodup_iff_injective_getElem]
  rintro ⟨j1, h1⟩ ⟨j2, h2⟩ heq
  simp only [] at heq
  have heq? : (swapRemove l i)[j1]? = (swapRemove l i)[j2]? := by
    rw [List.getElem?_eq_getElem h1, List.getElem?_eq_getElem h2, heq]
  exact Fin.ext (key j1 j2 h1 h2 heq?)

theorem add_pending_request_requests (okV okH : Bool) (j : String) (s s2 : Store)
    (h : add_pending_request okV okH j s = some s2) : s2.requests = s.requests := by
  unfold add_pending_request at h
  cases hp : s.pending_requests <;> rw [hp] at h
  · simp only [Option.some.injEq] at h
    subst h
    cases okV <;> cases okH <;> simp [update_pending_vector, update_pending_hashmap]
  · cases hq : s.pending_requests_index <;> rw [hq] at h
    · simp at h
    · simp only [Option.some.injEq] at h
      subst h
      cases okV <;> cases okH <;> simp [update_pending_vector, update_pending_hashmap]

theorem add_pending_preserves_inv (s : Store) (id : String) (s2 : Store)
    (hinv : swapRemoveInv s)
    (hfresh : ∀ l, s.pending_requests = some l → id ∉ l)
    (h : add_pending_request true true id s = some s2) : swapRemoveInv s2 := by
  obtain ⟨reqs, popt, iopt, copt⟩ := s
  cases popt with
  | none =>
    cases iopt with
    | some m => exact hinv.elim
    | none =>
      have h2 : (⟨reqs, some [id], some [(id, 0)], copt⟩ : Store) = s2 := by
        injection h
      subst h2
      show swapRemoveInvSome [id] [(id, 0)]
      refine ⟨by simp, by simp, by simp, ?_⟩
      intro p hp
      simp only [List.mem_singleton] at hp
      subst hp
      simp
  | some l =>
    cases iopt with
    | none => exact hinv.elim
    | some m =>
      obtain ⟨hnd, hknd, hmem, hpt⟩ := (hinv : swapRemoveInvSome l m)
      have hfr : id ∉ l := hfresh l rfl
      have hidkeys : id ∉ m.map Prod.fst := by
        intro hk
        obtain ⟨v, hv⟩ := Option.isSome_iff_exists.mp ((hmLookup_isSome_iff id m).mpr hk)
        have hmm := hpt _ (mem_of_hmLookup_eq_some hv)
        exact hfr (List.getElem?_mem hmm.2.2)
      have h2 : (⟨reqs, some (l ++ [id]),
          some (hmInsert id (l.length : Int) m), copt⟩ : Store) = s2 := by
        injection h
      subst h2
      show swapRemoveInvSome (l ++ [id]) (hmInsert id (l.length : Int) m)
      rw [hmInsert_of_not_mem_keys hidkeys]
      refine ⟨?_, ?_, ?_, ?_⟩
      · rw [List.nodup_append]
        exact ⟨hnd, List.nodup_singleton id,
          fun a ha hb => hfr ((List.mem_singleton.mp hb) ▸ ha)⟩
      · rw [List.map_append, List.nodup_append]
        refine ⟨hknd, by simp, fun a ha hb => ?_⟩
        simp only [List.map_cons, List.map_nil, List.mem_singleton] at hb
        exact hidkeys (hb ▸ ha)
      · intro x hx
        rw [List.map_append]
        rcases List.mem_append.mp hx with hx | hx
        · exact List.mem_append_left _ (hmem x hx)
        · exact List.mem_append_right _ (by simpa using hx)
      · intro p hp
        rcases List.mem_append.mp hp with hp | hp
        · obtain ⟨h0, h1, h2⟩ := hpt p hp
          refine ⟨h0, by simp only [List.length_append, List.length_cons, List.length_nil]; omega,
            ?_⟩
          rw [List.getElem?_append_left h1]
          exact h2
        · have hpe : p = (id, (l.length : Int)) := by simpa using hp
          subst hpe
          refine ⟨Int.natCast_nonneg _, ?_, ?_⟩
          · simp
          · simp [List.getElem?_concat_length]

theorem remove_pending_preserves_inv (s : Store) (id : String) (s2 : Store)
    (hinv : swapRemoveInv s)
    (h : remove_pending_request true true id s = some s2) : swapRemoveInv s2 := by
  obtain ⟨reqs, popt, iopt, copt⟩ := s
  cases popt with
  | none =>
    have h2 : (⟨reqs, none, iopt, copt⟩ : Store) = s2 := by
      injection h
    subst h2
    exact hinv
  | some l =>
    cases iopt with
    | none => exact hinv.elim
    | some m =>
      obtain ⟨hnd, hknd, hmem, hpt⟩ := (hinv : swapRemoveInvSome l m)
      have hred : remove_pending_request true true id ⟨reqs, some l, some m, copt⟩ =
          (match hmLookup id m with
            | none => none
            | some request_index =>
              if l.length = 0 then none
              else if 0 ≤ request_index ∧ request_index.toNat < l.length then
                some ⟨reqs, some (swapRemove l request_index.toNat),
                  some (hmSetIfMem (l.getD (l.length - 1) "") request_index (hmErase id m)),
                  copt⟩
              else none) := rfl
      rw [hred] at h
      split at h
      · exact Option.noConfusion h
      · rename_i ri hlk
        split at h
        · exact Option.noConfusion h
        · rename_i hlen0
          split at h
          case isFalse => exact Option.noConfusion h
          rename_i hbound
          obtain ⟨h0, hlt⟩ := hbound
          have hget : l[ri.toNat]? = some id :=
            (hpt _ (mem_of_hmLookup_eq_some hlk)).2.2
          have h2 : (⟨reqs, some (swapRemove l ri.toNat),
              some (hmSetIfMem (l.getD (l.length - 1) "") ri (hmErase id m)),
              copt⟩ : Store) = s2 := by
            injection h
          subst h2
          -- abbreviations and basic facts
          have hlast : l[l.length - 1]? = some (l.getD (l.length - 1) "") := by
            rw [List.getD_eq_getElem?_getD]
            cases hx : l[l.length - 1]? with
            | none =>
              rw [List.getElem?_eq_none_iff] at hx
              omega
            | some a => simp
          have hlastmem : l.getD (l.length - 1) "" ∈ l := List.getElem?_mem hlast
          have hekeys : ((hmErase id m).map Prod.fst).Sublist (m.map Prod.fst) :=
            List.Sublist.map Prod.fst (hmErase_sublist id m)
          have heknd : ((hmErase id m).map Prod.fst).Nodup := List.Nodup.sublist hekeys hknd
          have hiderase : hmLookup id (hmErase id m) = none := hmLookup_hmErase_self hknd
          show swapRemoveInvSome (swapRemove l ri.toNat)
            (hmSetIfMem (l.getD (l.length - 1) "") ri (hmErase id m))
          have hlen' : (swapRemove l ri.toNat).length = l.length - 1 := swapRemove_length l _
          have hknd' : ((hmSetIfMem (l.getD (l.length - 1) "") ri
              (hmErase id m)).map Prod.fst).Nodup := by
            rw [hmSetIfMem_keys]
            exact heknd
          refine ⟨swapRemove_nodup hnd hlt, hknd', ?_, ?_⟩
          · -- every listed id still has an index entry
            intro x hx
            obtain ⟨j, hj⟩ := List.mem_iff_getElem?.mp hx
            have hjlt : j < (swapRemove l ri.toNat).length := by
              rcases List.getElem?_eq_some.mp hj with ⟨hh, _⟩
              exact hh
            rw [hlen'] at hjlt
            rw [swapRemove_getElem? l ri.toNat j hlt hjlt] at hj
            rw [hmSetIfMem_keys]
            by_cases hji : j = ri.toNat
            · rw [if_pos hji] at hj
              have hx1 : x = l.getD (l.length - 1) "" := by
                rw [hlast] at hj
                exact ((Option.some.injEq _ _).mp hj).symm
              have hxid : x ≠ id := by
                intro hh
                have : l.length - 1 = ri.toNat :=
                  List.getElem?_inj (by omega) hnd
                    (by rw [hlast, hget]; exact congrArg some (hx1.symm.trans hh))
                omega
              rw [← hmLookup_isSome_iff]
              rw [hmLookup_hmErase_ne hxid]
              rw [hmLookup_isSome_iff]
              rw [hx1]
              exact hmem _ hlastmem
            · rw [if_neg hji] at hj
              have hxl : x ∈ l := List.getElem?_mem hj
              have hxid : x ≠ id := by
                intro hh
                exact hji (List.getElem?_inj (by omega) hnd
                  (by rw [hj, hget]; exact congrArg some hh))
              rw [← hmLookup_isSome_iff, hmLookup_hmErase_ne hxid, hmLookup_isSome_iff]
              exact hmem _ hxl
          · -- every index entry points at its own slot
            intro p hp
            have hlkp : hmLookup p.1 (hmSetIfMem (l.getD (l.length - 1) "") ri
                (hmErase id m)) = some p.2 := hmLookup_of_mem hknd' hp
            by_cases hpl : p.1 = l.getD (l.length - 1) ""
            · rw [hpl, hmLookup_hmSetIfMem_self] at hlkp
              obtain ⟨w, hw, hri⟩ := Option.map_eq_some'.mp hlkp
              have hlastid : l.getD (l.length - 1) "" ≠ id := by
                intro hh
                rw [hh, hiderase] at hw
                exact Option.noConfusion hw
              have hine : ri.toNat ≠ l.length - 1 := by
                intro hh
                apply hlastid
                have : some id = some (l.getD (l.length - 1) "") := by
                  rw [← hget, ← hlast, hh]
                exact (Option.some.injEq _ _).mp this.symm
              refine ⟨hri ▸ h0, ?_, ?_⟩
              · rw [hlen', ← hri]
                omega
              · rw [← hri, swapRemove_getElem? l ri.toNat ri.toNat hlt (by omega),
                  if_pos rfl, hlast, hpl]
            · have hne : p.1 ≠ l.getD (l.length - 1) "" := hpl
              rw [hmLookup_hmSetIfMem_ne hne] at hlkp
              have hpid : p.1 ≠ id := by
                intro hh
                rw [hh, hiderase] at hlkp
                exact Option.noConfusion hlkp
              rw [hmLookup_hmErase_ne hpid] at hlkp
              obtain ⟨g0, glt, gget⟩ := hpt _ (mem_of_hmLookup_eq_some hlkp)
              have hne1 : p.2.toNat ≠ l.length - 1 := by
                intro hh
                apply hpl
                have : some p.1 = some (l.getD (l.length - 1) "") := by
                  rw [← gget, ← hlast, hh]
                exact (Option.some.injEq _ _).mp this
              have hne2 : p.2.toNat ≠ ri.toNat := by
                intro hh
                apply hpid
                have : some p.1 = some id := by
                  rw [← gget, ← hget, hh]
                exact (Option.some.injEq _ _).mp this
              refine ⟨g0, ?_, ?_⟩
              · rw [hlen']
                omega
              · rw [swapRemove_getElem? l ri.toNat p.2.toNat hlt (by omega), if_neg hne2]
                exact gget

set_option maxRecDepth 8000 in
/-- Sanity check of the hash model against the standard Keccak-256 test
vector for the empty input. -/
theorem keccak256_empty_vector :
    bytesToHex (keccak256 []) =
      "c5d2460186f7233c927e7db2dcc703c0e500b653ca82273b7bfad8045d85a470" := by rfl

/-! ### Claim theorems -/

/-- C1: evaluation of finalize at a failing input.  finalize writes both
output fields, persists the record and appends the id to the completed
list, but it never writes the status field: a request finalized from
RequestReceived stays in RequestReceived (the unit test of the crate
asserts Completed here), so the completed list names a stored request
whose status is not Completed. -/
theorem C1_finalize_leaves_status :
    (BRequest.finalize
        ⟨"A", Status.RequestReceived, ⟨"c", "7", "o", Chains.EVM, "d"⟩, ["h1"], ⟨"", ""⟩, 0⟩
        5 "MintPk" "Ata"
        ⟨[("A", ⟨"A", Status.RequestReceived, ⟨"c", "7", "o", Chains.EVM, "d"⟩,
            ["h1"], ⟨"", ""⟩, 0⟩)], none, none, none⟩).1.status = Status.RequestReceived ∧
    ¬ (BRequest.finalize
        ⟨"A", Status.RequestReceived, ⟨"c", "7", "o", Chains.EVM, "d"⟩, ["h1"], ⟨"", ""⟩, 0⟩
        5 "MintPk" "Ata"
        ⟨[("A", ⟨"A", Status.RequestReceived, ⟨"c", "7", "o", Chains.EVM, "d"⟩,
            ["h1"], ⟨"", ""⟩, 0⟩)], none, none, none⟩).1.status = Status.Completed ∧
    (BRequest.finalize
        ⟨"A", Status.RequestReceived, ⟨"c", "7", "o", Chains.EVM, "d"⟩, ["h1"], ⟨"", ""⟩, 0⟩
        5 "MintPk" "Ata"
        ⟨[("A", ⟨"A", Status.RequestReceived, ⟨"c", "7", "o", Chains.EVM, "d"⟩,
            ["h1"], ⟨"", ""⟩, 0⟩)], none, none, none⟩).1.output = ⟨"Ata", "MintPk"⟩ ∧
    (BRequest.finalize
        ⟨"A", Status.RequestReceived, ⟨"c", "7", "o", Chains.EVM, "d"⟩, ["h1"], ⟨"", ""⟩, 0⟩
        5 "MintPk" "Ata"
        ⟨[("A", ⟨"A", Status.RequestReceived, ⟨"c", "7", "o", Chains.EVM, "d"⟩,
            ["h1"], ⟨"", ""⟩, 0⟩)], none, none, none⟩).2.completed_requests = some ["A"] ∧
    (request_data "A"
      (BRequest.finalize
        ⟨"A", Status.RequestReceived, ⟨"c", "7", "o", Chains.EVM, "d"⟩, ["h1"], ⟨"", ""⟩, 0⟩
        5 "MintPk" "Ata"
        ⟨[("A", ⟨"A", Status.RequestReceived, ⟨"c", "7", "o", Chains.EVM, "d"⟩,
            ["h1"], ⟨"", ""⟩, 0⟩)], none, none, none⟩).2).map BRequest.status =
      some Status.RequestReceived := by decide

/-- C8: generate_id is the 0x-prefixed lowercase hex of the keccak-256
digest of the raw UTF-8 concatenation of the three fields with no
separator; every freshly created request carries generate_id of its input
triple as id, and re-submitting the same triple yields the same id
independently of the remaining fields and of the creation time. -/
theorem C8_generate_id_pure :
    (∀ contract token_id token_owner : String,
      BRequest.generate_id contract token_id token_owner =
        "0x" ++ bytesToHex (keccak256
          (strBytes contract ++ strBytes token_id ++ strBytes token_owner))) ∧
    (∀ (input : InputRequest) (now : Nat),
      (BRequest.new input now).id =
        BRequest.generate_id input.contract_or_mint input.token_id input.token_owner) ∧
    (∀ (c t o : String) (n1 n2 : Chains) (d1 d2 : String) (t1 t2 : Nat),
      (BRequest.new ⟨c, t, o, n1, d1⟩ t1).id = (BRequest.new ⟨c, t, o, n2, d2⟩ t2).id) :=
  ⟨fun _ _ _ => rfl, fun _ _ => rfl, fun _ _ _ _ _ _ _ _ _ => rfl⟩

/-- C9: recovery does not tolerate a missing index entry.  With the id
present in the pending list but absent from the index map (the state a
crash between the two key writes leaves behind), and likewise with the
whole index key absent, remove_pending_request hits
indexes.remove(id).unwrap() and panics (modelled as none) instead of
re-inserting the mapping and completing without error. -/
theorem C9_remove_pending_panics_on_missing_index :
    remove_pending_request true true "A" ⟨[], some ["A"], some [], some []⟩ = none ∧
    remove_pending_request true true "A" ⟨[], some ["A"], none, some []⟩ = none := by decide

/-- C6: counterexample to the claim as stated.  From the terminal state
Completed, update_state does not leave the request unchanged: it restamps
last_update (and re-persists the record). -/
theorem C6_terminal_not_unchanged :
    ¬ ((BRequest.update_state
        ⟨"A", Status.Completed, ⟨"c", "7", "o", Chains.EVM, "d"⟩, ["h1"], ⟨"x", "y"⟩, 0⟩
        1 ⟨[], none, none, none⟩).1 =
      ⟨"A", Status.Completed, ⟨"c", "7", "o", Chains.EVM, "d"⟩, ["h1"], ⟨"x", "y"⟩, 0⟩) := by
  decide

/-- C6 amended: update_state advances the status by exactly one step along
RequestReceived, TokenReceived, TokenMinted, Completed; from Completed or
Canceled the status is unchanged, and the only change to the request is the
fresh last_update stamp; the whole record is persisted in all cases. -/
theorem C6_update_state_one_step :
    ∀ (r : BRequest) (now : Nat) (s : Store),
    (r.status = Status.RequestReceived →
      (r.update_state now s).1 = { r with status := Status.TokenReceived, last_update := now }) ∧
    (r.status = Status.TokenReceived →
      (r.update_state now s).1 = { r with status := Status.TokenMinted, last_update := now }) ∧
    (r.status = Status.TokenMinted →
      (r.update_state now s).1 = { r with status := Status.Completed, last_update := now }) ∧
    ((r.status = Status.Completed ∨ r.status = Status.Canceled) →
      (r.update_state now s).1 = { r with last_update := now }) ∧
    (r.update_state now s).2 = s.put_request (r.update_state now s).1 := by
  intro r now s
  refine ⟨?_, ?_, ?_, ?_, rfl⟩ <;> intro h
  · simp [BRequest.update_state, h, statusStep]
  · simp [BRequest.update_state, h, statusStep]
  · simp [BRequest.update_state, h, statusStep]
  · rcases h with h | h <;> simp [BRequest.update_state, h, statusStep]

/-- C6 witness: the terminal conjunct of the amended theorem at a concrete
Completed request. -/
theorem C6_update_state_one_step_witness :
    (BRequest.update_state
        ⟨"A", Status.Completed, ⟨"c", "7", "o", Chains.EVM, "d"⟩, ["h1"], ⟨"x", "y"⟩, 0⟩
        1 ⟨[], none, none, none⟩).1 =
      { (⟨"A", Status.Completed, ⟨"c", "7", "o", Chains.EVM, "d"⟩, ["h1"], ⟨"x", "y"⟩, 0⟩ :
          BRequest) with last_update := 1 } :=
  (C6_update_state_one_step _ 1 _).2.2.2.1 (Or.inl rfl)

/-- C2: counterexample to the claim as stated.  On the EVM side the
ownership check fails (the on-chain owner is EVE, not BRIDGE): the request
is canceled, yet one Mint TxMessage is still enqueued for it. -/
theorem C2_evm_mint_enqueued_despite_failed_check :
    evm_check_token_owner "BRIDGE" "EVE" (some "md") "A" 5
        ⟨[("A", ⟨"A", Status.RequestReceived, ⟨"c", "7", "o", Chains.EVM, "d"⟩,
            ["h1"], ⟨"", ""⟩, 0⟩)], none, none, none⟩ =
      some (⟨[("A", ⟨"A", Status.Canceled, ⟨"c", "7", "o", Chains.EVM, "d"⟩,
            ["h1"], ⟨"", ""⟩, 5⟩)], none, none, none⟩,
        [⟨Function.Mint, some ⟨"A", "md"⟩, none⟩]) := by decide

/-- C2 amended: the EVM listener enqueues exactly one Mint message for
every stored request it sees, whether or not the ownership check succeeds;
on failure it cancels the request first (the subsequent update_state leaves
Canceled in place), on success it advances from whatever the current status
is.  The Solana listener is guarded instead: from RequestReceived it
advances and enqueues one Mint message iff the bridge account owns exactly
one token, and on a failed check it neither cancels nor enqueues. -/
theorem C2_listener_ownership_behaviour :
    (∀ (bridge owner md id : String) (now : Nat) (s : Store) (r : BRequest),
      request_data id s = some r → r.id = id → owner ≠ bridge →
      ∃ s2, evm_check_token_owner bridge owner (some md) id now s =
          some (s2, [⟨Function.Mint, some ⟨id, md⟩, none⟩]) ∧
        request_data id s2 = some { r with status := Status.Canceled, last_update := now }) ∧
    (∀ (bridge md id : String) (now : Nat) (s : Store) (r : BRequest),
      request_data id s = some r → r.id = id →
      ∃ s2, evm_check_token_owner bridge bridge (some md) id now s =
          some (s2, [⟨Function.Mint, some ⟨id, md⟩, none⟩]) ∧
        request_data id s2 = some { r with status := statusStep r.status, last_update := now }) ∧
    (∀ (bridge md id : String) (amount : Nat) (now : Nat) (s : Store) (r : BRequest),
      request_data id s = some r → r.id = id →
      r.status = Status.RequestReceived → amount = 1 →
      ∃ s2, solana_check_token_owner bridge true true bridge amount (some md) id now s =
          some (s2, [⟨Function.Mint, some ⟨id, md⟩, none⟩]) ∧
        request_data id s2 = some { r with status := Status.TokenReceived, last_update := now }) ∧
    (∀ (bridge owner md id : String) (amount : Nat) (now : Nat) (s : Store) (r : BRequest),
      request_data id s = some r →
      r.status = Status.RequestReceived → ¬ (owner = bridge ∧ amount = 1) →
      solana_check_token_owner bridge true true owner amount (some md) id now s =
        some (s, [])) := by
  refine ⟨?_, ?_, ?_, ?_⟩
  · intro bridge owner md id now s r hr hid hown
    refine ⟨((r.cancel s).1.update_state now (r.cancel s).2).2, ?_, ?_⟩
    · simp [evm_check_token_owner, hr, hown]
    · simp [BRequest.update_state, BRequest.cancel,
        Store.put_request, request_data, statusStep, hid, hmLookup_hmInsert_self]
  · intro bridge md id now s r hr hid
    refine ⟨(r.update_state now s).2, ?_, ?_⟩
    · simp [evm_check_token_owner, hr]
    · simp [BRequest.update_state, Store.put_request,
        request_data, hid, hmLookup_hmInsert_self]
  · intro bridge md id amount now s r hr hid hst hamt
    subst hamt
    refine ⟨(r.update_state now s).2, ?_, ?_⟩
    · simp [solana_check_token_owner, hr, hst]
    · simp [BRequest.update_state, Store.put_request,
        request_data, statusStep, hid, hst, hmLookup_hmInsert_self]
  · intro bridge owner md id amount now s r hr hst hfail
    simp [solana_check_token_owner, hr, hst, hfail]

/-- C2 witness: the Solana success conjunct of the amended theorem at a
concrete request. -/
theorem C2_listener_ownership_behaviour_witness :
    ∃ s2, solana_check_token_owner "BR" true true "BR" 1 (some "md") "A" 9
        ⟨[("A", ⟨"A", Status.RequestReceived, ⟨"m", "", "acc", Chains.SOLANA, "d"⟩,
            ["h1"], ⟨"", ""⟩, 0⟩)], none, none, none⟩ =
        some (s2, [⟨Function.Mint, some ⟨"A", "md"⟩, none⟩]) ∧
      request_data "A" s2 =
        some ⟨"A", Status.TokenReceived, ⟨"m", "", "acc", Chains.SOLANA, "d"⟩,
          ["h1"], ⟨"", ""⟩, 9⟩ :=
  C2_listener_ownership_behaviour.2.2.1 "BR" "md" "A" 1 9
    ⟨[("A", ⟨"A", Status.RequestReceived, ⟨"m", "", "acc", Chains.SOLANA, "d"⟩,
        ["h1"], ⟨"", ""⟩, 0⟩)], none, none, none⟩
    ⟨"A", Status.RequestReceived, ⟨"m", "", "acc", Chains.SOLANA, "d"⟩, ["h1"], ⟨"", ""⟩, 0⟩
    (by decide) (by decide) (by decide) rfl

/-- C3: counterexample to the claim as stated.  Starting from a store
satisfying the pending invariant, cancel flips the status to Canceled but
leaves the id in the pending collections, so the invariant does not hold at
every reachable state and cancel does not remove the id as part of the
transition. -/
theorem C3_cancel_leaves_pending :
    ((BRequest.cancel
        ⟨"A", Status.RequestReceived, ⟨"c", "7", "o", Chains.EVM, "d"⟩, ["h1"], ⟨"", ""⟩, 0⟩
        ⟨[("A", ⟨"A", Status.RequestReceived, ⟨"c", "7", "o", Chains.EVM, "d"⟩,
            ["h1"], ⟨"", ""⟩, 0⟩)], some ["A"], some [("A", 0)], none⟩).2.pending_requests =
      some ["A"]) ∧
    ((request_data "A"
        (BRequest.cancel
          ⟨"A", Status.RequestReceived, ⟨"c", "7", "o", Chains.EVM, "d"⟩, ["h1"], ⟨"", ""⟩, 0⟩
          ⟨[("A", ⟨"A", Status.RequestReceived, ⟨"c", "7", "o", Chains.EVM, "d"⟩,
              ["h1"], ⟨"", ""⟩, 0⟩)], some ["A"], some [("A", 0)], none⟩).2).map
        BRequest.status = some Status.Canceled) := by decide

/-- C3 amended: neither cancel nor the TokenMinted-to-Completed transition
of the event listener touches the pending collections; an id of a Completed
or Canceled request is removed from pending only by the recovery pass,
whose terminal branches are exactly remove_pending_request. -/
theorem C3_pending_removal_only_in_recovery :
    (∀ (r : BRequest) (s : Store),
      (r.cancel s).2.pending_requests = s.pending_requests ∧
      (r.cancel s).2.pending_requests_index = s.pending_requests_index) ∧
    (∀ (a b c d : String) (now : Nat) (s : Store),
      (catch_event_token_minted a b c d now s).pending_requests = s.pending_requests ∧
      (catch_event_token_minted a b c d now s).pending_requests_index =
        s.pending_requests_index) ∧
    (∀ (bridge : String) (o : RecoveryOracle) (r : BRequest) (now : Nat) (s : Store),
      (r.status = Status.Completed ∨ r.status = Status.Canceled) →
      process_evm_pending_request bridge o r now s =
        (remove_pending_request true true r.id s).map (fun s2 => (s2, []))) := by
  refine ⟨?_, ?_, ?_⟩
  · intro r s
    exact ⟨rfl, rfl⟩
  · intro a b c d now s
    unfold catch_event_token_minted
    cases hq : request_data a s with
    | none => exact ⟨rfl, rfl⟩
    | some r =>
      by_cases h1 : r.status = Status.TokenMinted
      · by_cases h2 : r.output.detination_contract_id_or_mint = b ∧
            r.output.detination_token_id_or_account = d
        · simp [h1, h2, BRequest.update_state, Store.put_request]
        · simp [h1, h2]
      · simp [h1]
  · intro bridge o r now s h
    rcases h with h | h <;> simp [process_evm_pending_request, h]

/-- C3 witness: the recovery conjunct of the amended theorem at a concrete
Completed request, removing it from a singleton pending set. -/
theorem C3_pending_removal_only_in_recovery_witness :
    process_evm_pending_request "B" ⟨"", none, "", "", "", false, none, "", "", ""⟩
        ⟨"A", Status.Completed, ⟨"c", "7", "o", Chains.EVM, "d"⟩, ["h1"], ⟨"x", "y"⟩, 0⟩ 3
        ⟨[], some ["A"], some [("A", 0)], none⟩ =
      (remove_pending_request true true "A" ⟨[], some ["A"], some [("A", 0)], none⟩).map
        (fun s2 => (s2, [])) :=
  C3_pending_removal_only_in_recovery.2.2 "B" _ _ 3 _ (Or.inl rfl)

/-- C7: counterexample to the claim as stated.  Delivering the same Mint
message twice re-runs finalize, which unconditionally appends the id to the
completed list: after the second delivery the completed list holds the id
twice, so the second finalize does not produce the same persisted state
(the request record itself differs only by the extra hash and timestamp,
and its status never reaches Completed at all). -/
theorem C7_remint_duplicates_completed :
    (solana_mint_new_token "sig1" "M" "T" "A" "md" 1
        ⟨[("A", ⟨"A", Status.TokenReceived, ⟨"c", "7", "o", Chains.EVM, "d"⟩,
            ["lock"], ⟨"", ""⟩, 0⟩)], some ["A"], some [("A", 0)], none⟩).completed_requests =
      some ["A"] ∧
    (solana_mint_new_token "sig2" "M" "T" "A" "md" 2
        (solana_mint_new_token "sig1" "M" "T" "A" "md" 1
          ⟨[("A", ⟨"A", Status.TokenReceived, ⟨"c", "7", "o", Chains.EVM, "d"⟩,
              ["lock"], ⟨"", ""⟩, 0⟩)], some ["A"], some [("A", 0)], none⟩)).completed_requests =
      some ["A", "A"] ∧
    ((request_data "A"
        (solana_mint_new_token "sig2" "M" "T" "A" "md" 2
          (solana_mint_new_token "sig1" "M" "T" "A" "md" 1
            ⟨[("A", ⟨"A", Status.TokenReceived, ⟨"c", "7", "o", Chains.EVM, "d"⟩,
                ["lock"], ⟨"", ""⟩, 0⟩)], some ["A"], some [("A", 0)], none⟩))).map
        BRequest.tx_hashes = some ["lock", "sig1", "sig2"]) := by decide

/-- C7 amended: re-delivering a Mint message for an already minted and
finalized request (stored status TokenMinted, since finalize never writes
the status) appends the extra tx hash, leaves status and output unchanged
up to rewriting the same derived values, and re-runs finalize, which
appends the id to the completed list once more; the request record itself
is reproduced timestamp-and-hash aside, and finalize applied twice yields
the same record up to last_update while growing the completed list. -/
theorem C7_remint_effect :
    (∀ (s : Store) (id : String) (r : BRequest) (sig mint_pk ata md : String) (now : Nat),
      request_data id s = some r → r.id = id → r.status = Status.TokenMinted →
      request_data id (solana_mint_new_token sig mint_pk ata id md now s) =
        some { r with
          tx_hashes := r.tx_hashes ++ [sig],
          output := ⟨ata, mint_pk⟩,
          last_update := now } ∧
      (solana_mint_new_token sig mint_pk ata id md now s).completed_requests =
        some ((s.completed_requests.getD []) ++ [id])) ∧
    (∀ (r : BRequest) (now1 now2 : Nat) (tc ti : String) (s : Store),
      ((r.finalize now1 tc ti s).1.finalize now2 tc ti (r.finalize now1 tc ti s).2).1 =
        { (r.finalize now1 tc ti s).1 with last_update := now2 } ∧
      ((r.finalize now1 tc ti s).1.finalize now2 tc ti
          (r.finalize now1 tc ti s).2).2.completed_requests =
        some (((r.finalize now1 tc ti s).2.completed_requests.getD []) ++ [r.id])) := by
  constructor
  · intro s id r sig mint_pk ata md now hr hid hst
    unfold solana_mint_new_token
    rw [hr]
    constructor
    · simp [BRequest.add_tx, hst, BRequest.finalize, request_data_add_completed,
        add_completed_request_requests, Store.put_request, request_data, hid,
        hmLookup_hmInsert_self]
    · simp [BRequest.add_tx, hst, BRequest.finalize, add_completed_request_completed,
        Store.put_request, hid]
  · intro r now1 now2 tc ti s
    constructor
    · simp [BRequest.finalize]
    · simp [BRequest.finalize, add_completed_request_completed, Store.put_request]

/-- C7 witness: the re-delivery conjunct of the amended theorem at the
store produced by a first delivery. -/
theorem C7_remint_effect_witness :
    request_data "A"
        (solana_mint_new_token "sig2" "M" "T" "A" "md" 2
          ⟨[("A", ⟨"A", Status.TokenMinted, ⟨"c", "7", "o", Chains.EVM, "d"⟩,
              ["lock", "sig1"], ⟨"T", "M"⟩, 1⟩)], some ["A"], some [("A", 0)], some ["A"]⟩) =
      some ⟨"A", Status.TokenMinted, ⟨"c", "7", "o", Chains.EVM, "d"⟩,
        ["lock", "sig1", "sig2"], ⟨"T", "M"⟩, 2⟩ ∧
    (solana_mint_new_token "sig2" "M" "T" "A" "md" 2
        ⟨[("A", ⟨"A", Status.TokenMinted, ⟨"c", "7", "o", Chains.EVM, "d"⟩,
            ["lock", "sig1"], ⟨"T", "M"⟩, 1⟩)], some ["A"], some [("A", 0)],
          some ["A"]⟩).completed_requests = some ["A", "A"] :=
  C7_remint_effect.1
    ⟨[("A", ⟨"A", Status.TokenMinted, ⟨"c", "7", "o", Chains.EVM, "d"⟩,
        ["lock", "sig1"], ⟨"T", "M"⟩, 1⟩)], some ["A"], some [("A", 0)], some ["A"]⟩
    "A" ⟨"A", Status.TokenMinted, ⟨"c", "7", "o", Chains.EVM, "d"⟩,
      ["lock", "sig1"], ⟨"T", "M"⟩, 1⟩
    "sig2" "M" "T" "md" 2 (by decide) (by decide) (by decide)

/-- C10: the pending-collection writers swallow storage failures entirely:
with a failing put they leave the store unchanged and still report success,
and new_request ignores the outcome of add_pending_request, so an intake
whose pending puts all fail still returns the request even though its id
was never durably added to the pending collections. -/
theorem C10_pending_write_failures_swallowed :
    (∀ (s : Store) (v : List String), update_pending_vector false s v = s) ∧
    (∀ (s : Store) (m : List (String × Int)), update_pending_hashmap false s m = s) ∧
    (∀ (input : InputRequest) (now : Nat) (s : Store) (tx : String),
      already_existing_request (BRequest.new input now).id s = false →
      (s.pending_requests.isSome = true → s.pending_requests_index.isSome = true) →
      ∃ s2, new_request true (some tx) true false false input now s =
          some (Except.ok (((BRequest.new input now).add_tx tx s).1, s2)) ∧
        s2.pending_requests = s.pending_requests ∧
        s2.pending_requests_index = s.pending_requests_index) := by
  refine ⟨fun s v => by simp [update_pending_vector],
         fun s m => by simp [update_pending_hashmap], ?_⟩
  intro input now s tx hgate hshape
  refine ⟨((BRequest.new input now).add_tx tx s).2, ?_,
    by simp [BRequest.add_tx, Store.put_request],
    by simp [BRequest.add_tx, Store.put_request]⟩
  cases hp : s.pending_requests with
  | some pending =>
    have hidx : s.pending_requests_index.isSome = true := hshape (by simp [hp])
    cases hq : s.pending_requests_index with
    | none => simp [hq] at hidx
    | some indexes =>
      simp [new_request, hgate, add_pending_request, BRequest.add_tx, Store.put_request,
        hp, hq, update_pending_vector, update_pending_hashmap]
  | none =>
    simp [new_request, hgate, add_pending_request, BRequest.add_tx, Store.put_request,
      hp, update_pending_vector, update_pending_hashmap]

/-- C10 witness: intake on an empty store with both pending puts failing
still returns the fresh request, and the pending keys stay absent. -/
theorem C10_pending_write_failures_swallowed_witness :
    ∃ s2, new_request true (some "tx1") true false false
        ⟨"c", "7", "o", Chains.EVM, "d"⟩ 0 ⟨[], none, none, none⟩ =
        some (Except.ok
          (((BRequest.new ⟨"c", "7", "o", Chains.EVM, "d"⟩ 0).add_tx "tx1"
              ⟨[], none, none, none⟩).1, s2)) ∧
      s2.pending_requests = (⟨[], none, none, none⟩ : Store).pending_requests ∧
      s2.pending_requests_index = (⟨[], none, none, none⟩ : Store).pending_requests_index :=
  C10_pending_write_failures_swallowed.2.2 ⟨"c", "7", "o", Chains.EVM, "d"⟩ 0
    ⟨[], none, none, none⟩ "tx1" rfl (fun h => by simp at h)

/-- C5: intake returns AlreadyExistingRequest(id) exactly when the id is
stored with a status outside Canceled and Completed; a pre-existing entry
in a terminal status passes the gate, and a successful submission then
overwrites it with a fresh RequestReceived record carrying the single new
tx hash. -/
theorem C5_intake_duplicate_gate :
    ∀ (destValid : Bool) (txResult : Option String) (addTxOk okV okH : Bool)
      (input : InputRequest) (now : Nat) (s : Store),
    ((new_request destValid txResult addTxOk okV okH input now s =
        some (Except.error (RequestError.AlreadyExistingRequest (BRequest.new input now).id)))
      ↔ already_existing_request (BRequest.new input now).id s = true) ∧
    (already_existing_request (BRequest.new input now).id s = true ↔
      ∃ r, request_data (BRequest.new input now).id s = some r ∧
        r.status ≠ Status.Canceled ∧ r.status ≠ Status.Completed) ∧
    (∀ (rOld : BRequest) (tx : String) (s2 : Store),
      request_data (BRequest.new input now).id s = some rOld →
      (rOld.status = Status.Canceled ∨ rOld.status = Status.Completed) →
      add_pending_request okV okH ((BRequest.new input now).add_tx tx s).1.id
          ((BRequest.new input now).add_tx tx s).2 = some s2 →
      new_request true (some tx) true okV okH input now s =
        some (Except.ok (((BRequest.new input now).add_tx tx s).1, s2)) ∧
      request_data (BRequest.new input now).id s2 =
        some ((BRequest.new input now).add_tx tx s).1 ∧
      ((BRequest.new input now).add_tx tx s).1.status = Status.RequestReceived ∧
      ((BRequest.new input now).add_tx tx s).1.tx_hashes = [tx]) := by
  intro destValid txResult addTxOk okV okH input now s
  refine ⟨?_, ?_, ?_⟩
  · by_cases hgate : already_existing_request (BRequest.new input now).id s = true
    · simp [new_request, hgate]
    · simp only [Bool.not_eq_true] at hgate
      cases destValid
      · simp [new_request, hgate]
      · cases txResult with
        | none => cases hnet : input.origin_network <;> simp [new_request, hgate, hnet]
        | some tx =>
          cases addTxOk
          · simp [new_request, hgate]
          · cases hadd : add_pending_request okV okH
                ((BRequest.new input now).add_tx tx s).1.id
                ((BRequest.new input now).add_tx tx s).2 with
            | none => simp [new_request, hgate, hadd]
            | some s2 => simp [new_request, hgate, hadd]
  · cases hq : request_data (BRequest.new input now).id s with
    | none => simp [already_existing_request, hq]
    | some r =>
      simp [already_existing_request, hq, Bool.and_eq_true, bne_iff_ne]
  · intro rOld tx s2 hro hterm hadd
    have hgate : already_existing_request (BRequest.new input now).id s = false := by
      rcases hterm with h | h <;> simp [already_existing_request, hro, h]
    refine ⟨?_, ?_, rfl, rfl⟩
    · simp [new_request, hgate, hadd]
    · rw [request_data, add_pending_request_requests okV okH _ _ _ hadd]
      simp [BRequest.add_tx, Store.put_request, request_data, hmLookup_hmInsert_self]

set_option maxRecDepth 100000 in
/-- C5 witness: a store holding a Canceled request under the generated id
of the triple (c, 7, o) accepts a re-submission of that triple and
overwrites the entry. -/
theorem C5_intake_duplicate_gate_witness :
    new_request true (some "tx1") true true true ⟨"c", "7", "o", Chains.EVM, "d"⟩ 0
        ⟨[("0x1d18cd956ba067e61c0a3489b06afcb59f46a374b3539a8b3aa37aca75d19ea7",
            ⟨"0x1d18cd956ba067e61c0a3489b06afcb59f46a374b3539a8b3aa37aca75d19ea7",
              Status.Canceled, ⟨"c", "7", "o", Chains.EVM, "d"⟩, ["old"], ⟨"", ""⟩, 0⟩)],
          none, none, none⟩ =
      some (Except.ok
        (((BRequest.new ⟨"c", "7", "o", Chains.EVM, "d"⟩ 0).add_tx "tx1"
            ⟨[("0x1d18cd956ba067e61c0a3489b06afcb59f46a374b3539a8b3aa37aca75d19ea7",
                ⟨"0x1d18cd956ba067e61c0a3489b06afcb59f46a374b3539a8b3aa37aca75d19ea7",
                  Status.Canceled, ⟨"c", "7", "o", Chains.EVM, "d"⟩, ["old"], ⟨"", ""⟩, 0⟩)],
              none, none, none⟩).1,
          ⟨[("0x1d18cd956ba067e61c0a3489b06afcb59f46a374b3539a8b3aa37aca75d19ea7",
              ⟨"0x1d18cd956ba067e61c0a3489b06afcb59f46a374b3539a8b3aa37aca75d19ea7",
                Status.RequestReceived, ⟨"c", "7", "o", Chains.EVM, "d"⟩, ["tx1"],
                ⟨"", ""⟩, 0⟩)],
            some ["0x1d18cd956ba067e61c0a3489b06afcb59f46a374b3539a8b3aa37aca75d19ea7"],
            some [("0x1d18cd956ba067e61c0a3489b06afcb59f46a374b3539a8b3aa37aca75d19ea7", 0)],
            none⟩)) ∧
    request_data
        (BRequest.new ⟨"c", "7", "o", Chains.EVM, "d"⟩ 0).id
        ⟨[("0x1d18cd956ba067e61c0a3489b06afcb59f46a374b3539a8b3aa37aca75d19ea7",
            ⟨"0x1d18cd956ba067e61c0a3489b06afcb59f46a374b3539a8b3aa37aca75d19ea7",
              Status.RequestReceived, ⟨"c", "7", "o", Chains.EVM, "d"⟩, ["tx1"],
              ⟨"", ""⟩, 0⟩)],
          some ["0x1d18cd956ba067e61c0a3489b06afcb59f46a374b3539a8b3aa37aca75d19ea7"],
          some [("0x1d18cd956ba067e61c0a3489b06afcb59f46a374b3539a8b3aa37aca75d19ea7", 0)],
          none⟩ =
      some ((BRequest.new ⟨"c", "7", "o", Chains.EVM, "d"⟩ 0).add_tx "tx1"
          ⟨[("0x1d18cd956ba067e61c0a3489b06afcb59f46a374b3539a8b3aa37aca75d19ea7",
              ⟨"0x1d18cd956ba067e61c0a3489b06afcb59f46a374b3539a8b3aa37aca75d19ea7",
                Status.Canceled, ⟨"c", "7", "o", Chains.EVM, "d"⟩, ["old"], ⟨"", ""⟩, 0⟩)],
            none, none, none⟩).1 ∧
    ((BRequest.new ⟨"c", "7", "o", Chains.EVM, "d"⟩ 0).add_tx "tx1"
        ⟨[("0x1d18cd956ba067e61c0a3489b06afcb59f46a374b3539a8b3aa37aca75d19ea7",
            ⟨"0x1d18cd956ba067e61c0a3489b06afcb59f46a374b3539a8b3aa37aca75d19ea7",
              Status.Canceled, ⟨"c", "7", "o", Chains.EVM, "d"⟩, ["old"], ⟨"", ""⟩, 0⟩)],
          none, none, none⟩).1.status = Status.RequestReceived ∧
    ((BRequest.new ⟨"c", "7", "o", Chains.EVM, "d"⟩ 0).add_tx "tx1"
        ⟨[("0x1d18cd956ba067e61c0a3489b06afcb59f46a374b3539a8b3aa37aca75d19ea7",
            ⟨"0x1d18cd956ba067e61c0a3489b06afcb59f46a374b3539a8b3aa37aca75d19ea7",
              Status.Canceled, ⟨"c", "7", "o", Chains.EVM, "d"⟩, ["old"], ⟨"", ""⟩, 0⟩)],
          none, none, none⟩).1.tx_hashes = ["tx1"] :=
  (C5_intake_duplicate_gate true (some "tx1") true true true
      ⟨"c", "7", "o", Chains.EVM, "d"⟩ 0
      ⟨[("0x1d18cd956ba067e61c0a3489b06afcb59f46a374b3539a8b3aa37aca75d19ea7",
          ⟨"0x1d18cd956ba067e61c0a3489b06afcb59f46a374b3539a8b3aa37aca75d19ea7",
            Status.Canceled, ⟨"c", "7", "o", Chains.EVM, "d"⟩, ["old"], ⟨"", ""⟩, 0⟩)],
        none, none, none⟩).2.2
    ⟨"0x1d18cd956ba067e61c0a3489b06afcb59f46a374b3539a8b3aa37aca75d19ea7",
      Status.Canceled, ⟨"c", "7", "o", Chains.EVM, "d"⟩, ["old"], ⟨"", ""⟩, 0⟩
    "tx1"
    ⟨[("0x1d18cd956ba067e61c0a3489b06afcb59f46a374b3539a8b3aa37aca75d19ea7",
        ⟨"0x1d18cd956ba067e61c0a3489b06afcb59f46a374b3539a8b3aa37aca75d19ea7",
          Status.RequestReceived, ⟨"c", "7", "o", Chains.EVM, "d"⟩, ["tx1"],
          ⟨"", ""⟩, 0⟩)],
      some ["0x1d18cd956ba067e61c0a3489b06afcb59f46a374b3539a8b3aa37aca75d19ea7"],
      some [("0x1d18cd956ba067e61c0a3489b06afcb59f46a374b3539a8b3aa37aca75d19ea7", 0)],
      none⟩
    (by decide) (Or.inl rfl) (by decide)

/-- C4: add_pending_request of a fresh id and remove_pending_request both
preserve the swap-remove-set invariant (list entries unique, every listed
id has an index entry, every index entry points at the slot of its own id),
and concretely removing B from the pending list [A, B, C] with index
A to 0, B to 1, C to 2 yields the list [A, C] with index A to 0, C to 1. -/
theorem C4_swap_remove_set :
    (∀ (s : Store) (id : String) (s2 : Store), swapRemoveInv s →
      (∀ l, s.pending_requests = some l → id ∉ l) →
      add_pending_request true true id s = some s2 → swapRemoveInv s2) ∧
    (∀ (s : Store) (id : String) (s2 : Store), swapRemoveInv s →
      remove_pending_request true true id s = some s2 → swapRemoveInv s2) ∧
    (remove_pending_request true true "B"
        ⟨[], some ["A", "B", "C"], some [("A", 0), ("B", 1), ("C", 2)], none⟩ =
      some ⟨[], some ["A", "C"], some [("A", 0), ("C", 1)], none⟩) :=
  ⟨fun s id s2 h1 h2 h3 => add_pending_preserves_inv s id s2 h1 h2 h3,
   fun s id s2 h1 h2 => remove_pending_preserves_inv s id s2 h1 h2,
   by decide⟩

/-- C4 witness: both preservation conjuncts applied at concrete stores: the
S5 removal keeps the invariant, and so does adding the fresh id D to it. -/
theorem C4_swap_remove_set_witness :
    swapRemoveInv ⟨[], some ["A", "C"], some [("A", 0), ("C", 1)], none⟩ ∧
    swapRemoveInv ⟨[], some ["A", "C", "D"], some [("A", 0), ("C", 1), ("D", 2)], none⟩ :=
  ⟨C4_swap_remove_set.2.1
      ⟨[], some ["A", "B", "C"], some [("A", 0), ("B", 1), ("C", 2)], none⟩ "B"
      ⟨[], some ["A", "C"], some [("A", 0), ("C", 1)], none⟩
      (by decide) (by decide),
   C4_swap_remove_set.1
      ⟨[], some ["A", "C"], some [("A", 0), ("C", 1)], none⟩ "D"
      ⟨[], some ["A", "C", "D"], some [("A", 0), ("C", 1), ("D", 2)], none⟩
      (by decide) (by decide) (by decide)⟩

end Bridge
